import Mathlib

/-!
Verification of the enrollment-eligibility and capacity-control engine of the
Techtonica-Academy-CourseHub server (`src/routes/enrollments.js`, schema in
`db` DDL).  The relational state is embedded shallowly: tables become lists of
records, each SQL query becomes the corresponding pure function on those lists,
and each route handler's business logic becomes a state-passing function.
All request-layer concerns (auth, roles, HTTP status mapping, body validation)
are outside the embedded core, matching the spec's scoping.
-/

namespace CourseHub

/-- The `grade_letter` enum of the schema:
`('A_PLUS','A','A_MINUS','B_PLUS','B','B_MINUS','C_PLUS','C','C_MINUS','D','F')`. -/
inductive Grade where
  | aPlus | a | aMinus | bPlus | b | bMinus | cPlus | c | cMinus | d | f
  deriving DecidableEq, Repr

/-- A row of the `grades` table: student, course, letter value, `assigned_at`
timestamp (modelled as a Nat).  Grades are append-only. -/
structure GradeRec where
  studentId : Nat
  courseId : Nat
  value : Grade
  assignedAt : Nat
  deriving DecidableEq, Repr

/-- A row of the `courses` table restricted to the fields the core reads
(`id`, `enrollment_limit`), together with its `course_prereqs` adjacency
(the `prereq_id`s whose `course_id` is this course). -/
structure Course where
  id : Nat
  enrollmentLimit : Nat
  prereqIds : List Nat
  deriving DecidableEq, Repr

/-- A row of the `enrollments` table (serial `id`, student, course). -/
structure Enrollment where
  id : Nat
  studentId : Nat
  courseId : Nat
  deriving DecidableEq, Repr

/-- The database state the core touches: `courses` (with their prereq edges),
`enrollments`, `grades`, and the serial counter backing `enrollments.id`. -/
structure DB where
  courses : List Course
  enrollments : List Enrollment
  grades : List GradeRec
  nextEnrollmentId : Nat
  deriving DecidableEq, Repr

/-- `SELECT ... FROM courses c WHERE c.id = $1` (first row or none). -/
def getCourse (db : DB) (courseId : Nat) : Option Course :=
  db.courses.find? (fun c => c.id == courseId)

/-- `SELECT COUNT(*) FROM enrollments WHERE course_id = <courseId>` —
the occupancy of a course. -/
def countActiveEnrollments (db : DB) (courseId : Nat) : Nat :=
  (db.enrollments.filter (fun e => e.courseId == courseId)).length

/-- `SELECT 1 FROM enrollments WHERE student_id=$1 AND course_id=$2 LIMIT 1`
— does an active enrollment for the pair exist? -/
def isEnrolled (db : DB) (studentId courseId : Nat) : Bool :=
  db.enrollments.any (fun e => e.studentId == studentId && e.courseId == courseId)

/-- The rows of `grades` for a given (student, course) pair. -/
def gradesFor (gs : List GradeRec) (studentId courseId : Nat) : List GradeRec :=
  gs.filter (fun g => g.studentId == studentId && g.courseId == courseId)

/-- One step of selecting the row with maximal `assigned_at`.  On an exact
timestamp tie the earlier-kept row wins; the source relies on storage-level
ordering for ties, which the spec leaves unspecified (§9). -/
def pickLatest : Option GradeRec → GradeRec → Option GradeRec
  | none, g => some g
  | some best, g => if best.assignedAt < g.assignedAt then some g else some best

/-- `ORDER BY g.assigned_at DESC LIMIT 1` over the (student, course) rows of
`grades`; also the per-course row of the bulk route's
`SELECT DISTINCT ON (course_id) ... ORDER BY course_id, assigned_at DESC`. -/
def latestGradeRec (gs : List GradeRec) (studentId courseId : Nat) : Option GradeRec :=
  (gradesFor gs studentId courseId).foldl pickLatest none

/-- The latest grade value for (student, course), or `none` when the student
has no grade row for the course — spec §6's `getLatestGrade`. -/
def getLatestGrade (gs : List GradeRec) (studentId courseId : Nat) : Option Grade :=
  (latestGradeRec gs studentId courseId).map (fun g => g.value)

/-- The single-enroll route's unmet filter over the prerequisite rows:
`gradeRows.filter(r => !r.latest_grade || r.latest_grade === "F")`. -/
def unmetPrereqs (gs : List GradeRec) (studentId : Nat) (prereqIds : List Nat) : List Nat :=
  prereqIds.filter (fun pid =>
    match getLatestGrade gs studentId pid with
    | none => true
    | some g => g == Grade.f)

/-- The bulk route's pass test:
`prereqIds.every(pid => { const lg = ...; return lg && lg !== "F"; })`. -/
def passedAll (gs : List GradeRec) (studentId : Nat) (prereqIds : List Nat) : Bool :=
  prereqIds.all (fun pid =>
    match getLatestGrade gs studentId pid with
    | none => false
    | some g => g != Grade.f)

/-- Outcome of a single-enroll attempt, the spec's verdict taxonomy.
`success` carries the new enrollment row (`RETURNING *`). -/
inductive EnrollResult where
  | courseNotFound
  | capacity
  | prerequisiteUnmet
  | alreadyEnrolled
  | success (e : Enrollment)
  deriving DecidableEq, Repr

/-- `INSERT INTO enrollments ... ON CONFLICT DO NOTHING RETURNING *`:
atomic insert-if-absent keyed on (student_id, course_id); yields the new row
exactly when no row for the pair existed. -/
def insertIfAbsent (db : DB) (studentId courseId : Nat) : EnrollResult × DB :=
  if isEnrolled db studentId courseId then (EnrollResult.alreadyEnrolled, db)
  else
    let e : Enrollment := ⟨db.nextEnrollmentId, studentId, courseId⟩
    (EnrollResult.success e,
     { db with enrollments := db.enrollments ++ [e],
               nextEnrollmentId := db.nextEnrollmentId + 1 })

/-- The single-enroll handler `router.post("/")`: existence + capacity check,
then prerequisite check (only when the course has prerequisites), then the
atomic insert. -/
def enroll (db : DB) (studentId courseId : Nat) : EnrollResult × DB :=
  match getCourse db courseId with
  | none => (EnrollResult.courseNotFound, db)
  | some c =>
    if c.enrollmentLimit ≤ countActiveEnrollments db courseId then
      (EnrollResult.capacity, db)
    else if 0 < c.prereqIds.length then
      if 0 < (unmetPrereqs db.grades studentId c.prereqIds).length then
        (EnrollResult.prerequisiteUnmet, db)
      else insertIfAbsent db studentId courseId
    else insertIfAbsent db studentId courseId

/-- Per-candidate outcome of the bulk route; `prereq` is the code's literal
reason string for the spec's `prerequisite_unmet`. -/
inductive BulkOutcome where
  | success
  | capacity
  | alreadyEnrolled
  | prereq
  deriving DecidableEq, Repr

/-- One element of the bulk route's `results` array
(`{ studentId, ok, reason }`). -/
structure BulkItem where
  studentId : Nat
  outcome : BulkOutcome
  deriving DecidableEq, Repr

/-- Top-level result of the bulk route: 404 with no per-student results, or
200 with the ordered `results` list and final `seatsLeft`. -/
inductive BulkResult where
  | notFound
  | ok (results : List BulkItem) (seatsLeft : Nat)
  deriving DecidableEq, Repr

/-- The bulk route's per-student loop, folding over `studentIds` with the
local `seatsLeft` counter: capacity check against the counter, duplicate
check, prerequisite check (only when the course has prerequisites), then a
plain `INSERT` and a decrement.  `seatsLeft : Nat`, so the JS guard
`seatsLeft <= 0` is `seatsLeft = 0`. -/
def bulkLoop (courseId : Nat) (prereqIds : List Nat) :
    List Nat → DB → Nat → List BulkItem × DB × Nat
  | [], db, seatsLeft => ([], db, seatsLeft)
  | sid :: rest, db, seatsLeft =>
    if seatsLeft = 0 then
      let r := bulkLoop courseId prereqIds rest db seatsLeft
      (⟨sid, BulkOutcome.capacity⟩ :: r.1, r.2)
    else if isEnrolled db sid courseId then
      let r := bulkLoop courseId prereqIds rest db seatsLeft
      (⟨sid, BulkOutcome.alreadyEnrolled⟩ :: r.1, r.2)
    else if 0 < prereqIds.length ∧ ¬ passedAll db.grades sid prereqIds then
      let r := bulkLoop courseId prereqIds rest db seatsLeft
      (⟨sid, BulkOutcome.prereq⟩ :: r.1, r.2)
    else
      let e : Enrollment := ⟨db.nextEnrollmentId, sid, courseId⟩
      let db' : DB := { db with enrollments := db.enrollments ++ [e],
                                nextEnrollmentId := db.nextEnrollmentId + 1 }
      let r := bulkLoop courseId prereqIds rest db' (seatsLeft - 1)
      (⟨sid, BulkOutcome.success⟩ :: r.1, r.2)

/-- The bulk-enroll handler `router.post("/bulk")`: course lookup (404 with no
results when absent), `seatsLeft = Math.max(0, limit - occupancy)` computed
once (Nat subtraction is exactly `max 0 (limit - occupancy)`), prerequisite
set resolved once, then the sequential loop. -/
def bulkEnroll (db : DB) (courseId : Nat) (studentIds : List Nat) : BulkResult × DB :=
  match getCourse db courseId with
  | none => (BulkResult.notFound, db)
  | some c =>
    let seats0 : Nat := c.enrollmentLimit - countActiveEnrollments db courseId
    let r := bulkLoop courseId c.prereqIds studentIds db seats0
    (BulkResult.ok r.1 r.2.2, r.2.1)

/-- `DELETE FROM enrollments WHERE id = $1` after the ownership check of
`router.delete("/:enrollmentId")`: no-op unless the row exists and belongs to
the requesting student. -/
def unenrollById (db : DB) (studentId enrollmentId : Nat) : DB :=
  match db.enrollments.find? (fun e => e.id == enrollmentId) with
  | none => db
  | some e =>
    if e.studentId == studentId then
      { db with enrollments := db.enrollments.filter (fun e2 => e2.id != enrollmentId) }
    else db

/-- `DELETE FROM enrollments WHERE student_id=$1 AND course_id=$2`
(`router.delete("/by-course/:courseId")`). -/
def unenrollByCourse (db : DB) (studentId courseId : Nat) : DB :=
  { db with enrollments :=
      db.enrollments.filter (fun e => !(e.studentId == studentId && e.courseId == courseId)) }

/-- The operations of the core that mutate the enrollment ledger. -/
inductive Op where
  | enroll (studentId courseId : Nat)
  | bulk (courseId : Nat) (studentIds : List Nat)
  | unenrollById (studentId enrollmentId : Nat)
  | unenrollByCourse (studentId courseId : Nat)
  deriving DecidableEq, Repr

/-- Effect of one operation on the database state. -/
def applyOp (db : DB) : Op → DB
  | Op.enroll sid cid => (enroll db sid cid).2
  | Op.bulk cid sids => (bulkEnroll db cid sids).2
  | Op.unenrollById sid eid => unenrollById db sid eid
  | Op.unenrollByCourse sid cid => unenrollByCourse db sid cid

/-- Sequential execution of a list of operations. -/
def runOps (db : DB) : List Op → DB
  | [] => db
  | op :: rest => runOps (applyOp db op) rest

/-- An operation that only enrolls (no unenrollment). -/
def Op.isEnrollmentOp : Op → Bool
  | Op.enroll _ _ => true
  | Op.bulk _ _ => true
  | _ => false

/-- The `enrollments_unique UNIQUE (student_id, course_id)` schema invariant:
no two ledger rows share a (student, course) pair. -/
def NoDupPairs (db : DB) : Prop :=
  db.enrollments.Pairwise
    (fun e1 e2 => ¬ (e1.studentId = e2.studentId ∧ e1.courseId = e2.courseId))

/-! ### Concrete database states used by witnesses and counterexamples -/

/-- Course 10 (limit 3, no prerequisites) with two seats already taken:
exactly one remaining seat. -/
def dbOneSeat : DB := ⟨[⟨10, 3, []⟩], [⟨1, 7, 10⟩, ⟨2, 8, 10⟩], [], 100⟩

/-- The state after `bulkEnroll dbOneSeat 10 [1, 2, 3]`. -/
def dbOneSeatAfter : DB :=
  ⟨[⟨10, 3, []⟩], [⟨1, 7, 10⟩, ⟨2, 8, 10⟩, ⟨100, 1, 10⟩], [], 101⟩

/-- Course 10 (limit 2, prerequisite course 20) with no enrollments; student
1's latest grade for course 20 is F, students 2 and 3 hold passing grades. -/
def dbTwoSeats : DB :=
  ⟨[⟨10, 2, [20]⟩, ⟨20, 5, []⟩], [],
   [⟨1, 20, Grade.f, 5⟩, ⟨2, 20, Grade.b, 3⟩, ⟨3, 20, Grade.a, 4⟩], 100⟩

/-- The state after `bulkEnroll dbTwoSeats 10 [1, 2, 3]`. -/
def dbTwoSeatsAfter : DB :=
  ⟨[⟨10, 2, [20]⟩, ⟨20, 5, []⟩], [⟨100, 2, 10⟩, ⟨101, 3, 10⟩],
   [⟨1, 20, Grade.f, 5⟩, ⟨2, 20, Grade.b, 3⟩, ⟨3, 20, Grade.a, 4⟩], 102⟩

/-- Course 10 (limit 1, no prerequisites), full because student 1 is
enrolled in it. -/
def dbFullEnrolled : DB := ⟨[⟨10, 1, []⟩], [⟨1, 1, 10⟩], [], 2⟩

/-- Course 10 (limit 1, prerequisite course 20), full because student 5 is
enrolled; student 1 has no grade record for course 20. -/
def dbFullPrereq : DB := ⟨[⟨10, 1, [20]⟩, ⟨20, 5, []⟩], [⟨1, 5, 10⟩], [], 2⟩

/-- Course 10 (limit 5, no prerequisites) with student 1 enrolled and seats
remaining. -/
def dbSpareEnrolled : DB := ⟨[⟨10, 5, []⟩], [⟨1, 1, 10⟩], [], 2⟩

/-! ### Basic preservation lemmas -/

theorem insertIfAbsent_courses (db : DB) (sid cid : Nat) :
    ((insertIfAbsent db sid cid).2).courses = db.courses := by
  unfold insertIfAbsent
  split <;> rfl

theorem insertIfAbsent_grades (db : DB) (sid cid : Nat) :
    ((insertIfAbsent db sid cid).2).grades = db.grades := by
  unfold insertIfAbsent
  split <;> rfl

theorem enroll_courses (db : DB) (sid cid : Nat) :
    ((enroll db sid cid).2).courses = db.courses := by
  unfold enroll
  cases getCourse db cid with
  | none => rfl
  | some c =>
    simp only
    split
    · rfl
    · split
      · split
        · rfl
        · exact insertIfAbsent_courses db sid cid
      · exact insertIfAbsent_courses db sid cid

theorem enroll_grades (db : DB) (sid cid : Nat) :
    ((enroll db sid cid).2).grades = db.grades := by
  unfold enroll
  cases getCourse db cid with
  | none => rfl
  | some c =>
    simp only
    split
    · rfl
    · split
      · split
        · rfl
        · exact insertIfAbsent_grades db sid cid
      · exact insertIfAbsent_grades db sid cid

theorem bulkLoop_courses (cid : Nat) (pre : List Nat) (sids : List Nat) :
    ∀ (db : DB) (s : Nat), ((bulkLoop cid pre sids db s).2.1).courses = db.courses := by
  induction sids with
  | nil => intro db s; rfl
  | cons sid rest ih =>
    intro db s
    unfold bulkLoop
    split
    · exact ih db s
    · split
      · exact ih db s
      · split
        · exact ih db s
        · exact ih _ (s - 1)

theorem bulkLoop_grades (cid : Nat) (pre : List Nat) (sids : List Nat) :
    ∀ (db : DB) (s : Nat), ((bulkLoop cid pre sids db s).2.1).grades = db.grades := by
  induction sids with
  | nil => intro db s; rfl
  | cons sid rest ih =>
    intro db s
    unfold bulkLoop
    split
    · exact ih db s
    · split
      · exact ih db s
      · split
        · exact ih db s
        · exact ih _ (s - 1)

theorem bulkEnroll_courses (db : DB) (cid : Nat) (sids : List Nat) :
    ((bulkEnroll db cid sids).2).courses = db.courses := by
  unfold bulkEnroll
  cases getCourse db cid with
  | none => rfl
  | some c => exact bulkLoop_courses cid c.prereqIds sids db _

theorem applyOp_courses (db : DB) (op : Op) :
    (applyOp db op).courses = db.courses := by
  cases op with
  | enroll sid cid => exact enroll_courses db sid cid
  | bulk cid sids => exact bulkEnroll_courses db cid sids
  | unenrollById sid eid =>
    simp only [applyOp, unenrollById]
    split
    · rfl
    · split <;> rfl
  | unenrollByCourse sid cid => rfl

theorem runOps_courses (ops : List Op) :
    ∀ db : DB, (runOps db ops).courses = db.courses := by
  induction ops with
  | nil => intro db; rfl
  | cons op rest ih =>
    intro db
    unfold runOps
    rw [ih (applyOp db op), applyOp_courses]

theorem applyOp_getCourse (db : DB) (op : Op) (tc : Nat) :
    getCourse (applyOp db op) tc = getCourse db tc := by
  unfold getCourse
  rw [applyOp_courses]

/-! ### Occupancy accounting -/

theorem count_insert (db : DB) (sid cid tc : Nat) :
    countActiveEnrollments
      { db with enrollments := db.enrollments ++ [⟨db.nextEnrollmentId, sid, cid⟩],
                nextEnrollmentId := db.nextEnrollmentId + 1 } tc
      = countActiveEnrollments db tc + (if cid == tc then 1 else 0) := by
  simp only [countActiveEnrollments, List.filter_append, List.length_append]
  cases hb : cid == tc <;> simp [List.filter, hb]

/-- Through the bulk loop, occupancy of the batch's course plus the remaining
seat counter is conserved: every seat consumed is one enrollment inserted. -/
theorem bulkLoop_count_seats (cid : Nat) (pre : List Nat) (sids : List Nat) :
    ∀ (db : DB) (s : Nat),
      countActiveEnrollments (bulkLoop cid pre sids db s).2.1 cid
        + (bulkLoop cid pre sids db s).2.2
        = countActiveEnrollments db cid + s := by
  induction sids with
  | nil => intro db s; rfl
  | cons sid rest ih =>
    intro db s
    simp only [bulkLoop]
    split
    · exact ih db s
    · split
      · exact ih db s
      · split
        · exact ih db s
        · rename_i hs _ _
          have h2 := ih { db with enrollments := db.enrollments ++ [⟨db.nextEnrollmentId, sid, cid⟩],
                                  nextEnrollmentId := db.nextEnrollmentId + 1 } (s - 1)
          rw [count_insert] at h2
          simp only [beq_self_eq_true, if_pos] at h2
          simp
          omega

/-- The bulk loop never touches the occupancy of any other course. -/
theorem bulkLoop_count_ne (cid : Nat) (pre : List Nat) (sids : List Nat) (tc : Nat)
    (hne : cid ≠ tc) :
    ∀ (db : DB) (s : Nat),
      countActiveEnrollments (bulkLoop cid pre sids db s).2.1 tc
        = countActiveEnrollments db tc := by
  induction sids with
  | nil => intro db s; rfl
  | cons sid rest ih =>
    intro db s
    simp only [bulkLoop]
    split
    · exact ih db s
    · split
      · exact ih db s
      · split
        · exact ih db s
        · have h2 := ih { db with enrollments := db.enrollments ++ [⟨db.nextEnrollmentId, sid, cid⟩],
                                  nextEnrollmentId := db.nextEnrollmentId + 1 } (s - 1)
          rw [count_insert] at h2
          have hb : (cid == tc) = false := by simp [hne]
          rw [hb] at h2
          simp at h2 ⊢
          omega

/-- The bulk loop yields exactly one result item per input student, tagged
with that student, in input order. -/
theorem bulkLoop_map_studentIds (cid : Nat) (pre : List Nat) (sids : List Nat) :
    ∀ (db : DB) (s : Nat),
      ((bulkLoop cid pre sids db s).1).map BulkItem.studentId = sids := by
  induction sids with
  | nil => intro db s; rfl
  | cons sid rest ih =>
    intro db s
    simp only [bulkLoop]
    split
    · simp [ih db s]
    · split
      · simp [ih db s]
      · split
        · simp [ih db s]
        · simp [ih _ (s - 1)]

/-- Through the bulk loop, successful results plus the final seat counter
account exactly for the initial seat counter. -/
theorem bulkLoop_seats_accounting (cid : Nat) (pre : List Nat) (sids : List Nat) :
    ∀ (db : DB) (s : Nat),
      (((bulkLoop cid pre sids db s).1).filter
          (fun i => i.outcome == BulkOutcome.success)).length
        + (bulkLoop cid pre sids db s).2.2 = s := by
  induction sids with
  | nil => intro db s; simp [bulkLoop]
  | cons sid rest ih =>
    intro db s
    simp only [bulkLoop]
    split
    · have h2 := ih db s
      simp [List.filter]
      simpa using h2
    · split
      · have h2 := ih db s
        simp [List.filter]
        simpa using h2
      · split
        · have h2 := ih db s
          simp [List.filter]
          simpa using h2
        · rename_i hs _ _
          have h2 := ih { db with enrollments := db.enrollments ++ [⟨db.nextEnrollmentId, sid, cid⟩],
                                  nextEnrollmentId := db.nextEnrollmentId + 1 } (s - 1)
          simp [List.filter] at h2 ⊢
          omega

/-! ### Uniqueness of (student, course) pairs -/

theorem isEnrolled_false_forall (db : DB) (sid cid : Nat) (h : isEnrolled db sid cid = false) :
    ∀ e ∈ db.enrollments, ¬ (e.studentId = sid ∧ e.courseId = cid) := by
  intro e he hc
  simp only [isEnrolled, List.any_eq_false, Bool.and_eq_true, beq_iff_eq] at h
  exact h e he ⟨hc.1, hc.2⟩

theorem NoDupPairs_append (db db' : DB) (sid cid n : Nat)
    (henr : db'.enrollments = db.enrollments ++ [⟨n, sid, cid⟩])
    (hnd : NoDupPairs db) (h : isEnrolled db sid cid = false) :
    NoDupPairs db' := by
  unfold NoDupPairs at *
  rw [henr, List.pairwise_append]
  refine ⟨hnd, List.pairwise_singleton _ _, ?_⟩
  intro a ha b hb
  simp only [List.mem_singleton] at hb
  subst hb
  exact isEnrolled_false_forall db sid cid h a ha

theorem insertIfAbsent_NoDupPairs (db : DB) (sid cid : Nat) (h : NoDupPairs db) :
    NoDupPairs (insertIfAbsent db sid cid).2 := by
  unfold insertIfAbsent
  split
  · exact h
  · rename_i hen
    exact NoDupPairs_append db _ sid cid db.nextEnrollmentId rfl h (by simpa using hen)

theorem enroll_NoDupPairs (db : DB) (sid cid : Nat) (h : NoDupPairs db) :
    NoDupPairs (enroll db sid cid).2 := by
  unfold enroll
  cases getCourse db cid with
  | none => exact h
  | some c =>
    simp only
    split
    · exact h
    · split
      · split
        · exact h
        · exact insertIfAbsent_NoDupPairs db sid cid h
      · exact insertIfAbsent_NoDupPairs db sid cid h

/-- Each bulk-loop insert happens under a failed duplicate check, so the
uniqueness of pairs survives the whole batch. -/
theorem bulkLoop_NoDupPairs (cid : Nat) (pre : List Nat) (sids : List Nat) :
    ∀ (db : DB) (s : Nat), NoDupPairs db → NoDupPairs (bulkLoop cid pre sids db s).2.1 := by
  induction sids with
  | nil => intro db s h; exact h
  | cons sid rest ih =>
    intro db s h
    simp only [bulkLoop]
    split
    · exact ih db s h
    · split
      · exact ih db s h
      · split
        · exact ih db s h
        · rename_i hs hen hp
          exact ih _ (s - 1)
            (NoDupPairs_append db _ sid cid db.nextEnrollmentId rfl h (by simpa using hen))

theorem bulkEnroll_NoDupPairs (db : DB) (cid : Nat) (sids : List Nat) (h : NoDupPairs db) :
    NoDupPairs (bulkEnroll db cid sids).2 := by
  unfold bulkEnroll
  cases getCourse db cid with
  | none => exact h
  | some c => exact bulkLoop_NoDupPairs cid c.prereqIds sids db _ h

theorem unenrollById_NoDupPairs (db : DB) (sid eid : Nat) (h : NoDupPairs db) :
    NoDupPairs (unenrollById db sid eid) := by
  unfold unenrollById
  split
  · exact h
  · split
    · exact List.Pairwise.sublist (List.filter_sublist _) h
    · exact h

theorem unenrollByCourse_NoDupPairs (db : DB) (sid cid : Nat) (h : NoDupPairs db) :
    NoDupPairs (unenrollByCourse db sid cid) :=
  List.Pairwise.sublist (List.filter_sublist _) h

theorem applyOp_NoDupPairs (db : DB) (op : Op) (h : NoDupPairs db) :
    NoDupPairs (applyOp db op) := by
  cases op with
  | enroll sid cid => exact enroll_NoDupPairs db sid cid h
  | bulk cid sids => exact bulkEnroll_NoDupPairs db cid sids h
  | unenrollById sid eid => exact unenrollById_NoDupPairs db sid eid h
  | unenrollByCourse sid cid => exact unenrollByCourse_NoDupPairs db sid cid h

/-! ### Capacity preservation per operation -/

theorem enroll_capacity_le (db : DB) (sid cid tc : Nat) (c : Course)
    (hc : getCourse db tc = some c)
    (hle : countActiveEnrollments db tc ≤ c.enrollmentLimit) :
    countActiveEnrollments (enroll db sid cid).2 tc ≤ c.enrollmentLimit := by
  have hins : countActiveEnrollments db cid < c.enrollmentLimit ∨ cid ≠ tc →
      countActiveEnrollments (insertIfAbsent db sid cid).2 tc ≤ c.enrollmentLimit := by
    intro hcase
    unfold insertIfAbsent
    split
    · exact hle
    · rw [count_insert]
      by_cases he : cid = tc
      · subst he
        rcases hcase with hlt | hne
        · simp only [beq_self_eq_true, if_pos]
          omega
        · exact absurd rfl hne
      · have hb : (cid == tc) = false := by simp [he]
        rw [hb]
        simpa using hle
  unfold enroll
  cases hcc : getCourse db cid with
  | none => exact hle
  | some c2 =>
    simp only
    split
    · exact hle
    · rename_i hcap
      have hcase : countActiveEnrollments db cid < c.enrollmentLimit ∨ cid ≠ tc := by
        by_cases he : cid = tc
        · subst he
          rw [hc] at hcc
          have hcceq : c2 = c := (Option.some.inj hcc).symm
          subst hcceq
          exact Or.inl (Nat.lt_of_not_le hcap)
        · exact Or.inr he
      split
      · split
        · exact hle
        · exact hins hcase
      · exact hins hcase

theorem bulkEnroll_capacity_le (db : DB) (cid : Nat) (sids : List Nat) (tc : Nat) (c : Course)
    (hc : getCourse db tc = some c)
    (hle : countActiveEnrollments db tc ≤ c.enrollmentLimit) :
    countActiveEnrollments (bulkEnroll db cid sids).2 tc ≤ c.enrollmentLimit := by
  unfold bulkEnroll
  cases hcc : getCourse db cid with
  | none => exact hle
  | some c2 =>
    simp only
    by_cases he : cid = tc
    · subst he
      rw [hc] at hcc
      have hcceq : c2 = c := (Option.some.inj hcc).symm
      subst hcceq
      have h2 := bulkLoop_count_seats cid c2.prereqIds sids db
        (c2.enrollmentLimit - countActiveEnrollments db cid)
      omega
    · rw [bulkLoop_count_ne cid c2.prereqIds sids tc he db _]
      exact hle

theorem applyOp_capacity_le (db : DB) (op : Op) (tc : Nat) (c : Course)
    (hop : op.isEnrollmentOp = true)
    (hc : getCourse db tc = some c)
    (hle : countActiveEnrollments db tc ≤ c.enrollmentLimit) :
    countActiveEnrollments (applyOp db op) tc ≤ c.enrollmentLimit := by
  cases op with
  | enroll sid cid => exact enroll_capacity_le db sid cid tc c hc hle
  | bulk cid sids => exact bulkEnroll_capacity_le db cid sids tc c hc hle
  | unenrollById _ _ => simp [Op.isEnrollmentOp] at hop
  | unenrollByCourse _ _ => simp [Op.isEnrollmentOp] at hop

/-! ### Latest-grade selection: the fold picks the maximum-timestamp row -/

/-- Folding `pickLatest` from a non-empty accumulator yields either the
accumulator or a list element, never smaller in timestamp than the
accumulator or any element. -/
theorem foldl_pickLatest_acc (l : List GradeRec) :
    ∀ a : GradeRec, ∃ b, l.foldl pickLatest (some a) = some b ∧
      (b = a ∨ b ∈ l) ∧ a.assignedAt ≤ b.assignedAt ∧
      ∀ x ∈ l, x.assignedAt ≤ b.assignedAt := by
  induction l with
  | nil =>
    intro a
    exact ⟨a, rfl, Or.inl rfl, Nat.le_refl _, by intro x hx; cases hx⟩
  | cons x l' ih =>
    intro a
    by_cases h : a.assignedAt < x.assignedAt
    · obtain ⟨b, hb, hmem, hle, hall⟩ := ih x
      refine ⟨b, ?_, ?_, ?_, ?_⟩
      · simpa [List.foldl_cons, pickLatest, h] using hb
      · rcases hmem with rfl | hmem
        · exact Or.inr (List.mem_cons_self _ _)
        · exact Or.inr (List.mem_cons_of_mem _ hmem)
      · exact Nat.le_trans (Nat.le_of_lt h) hle
      · intro y hy
        rcases List.mem_cons.mp hy with rfl | hy
        · exact hle
        · exact hall y hy
    · obtain ⟨b, hb, hmem, hle, hall⟩ := ih a
      refine ⟨b, ?_, ?_, hle, ?_⟩
      · simpa [List.foldl_cons, pickLatest, h] using hb
      · rcases hmem with rfl | hmem
        · exact Or.inl rfl
        · exact Or.inr (List.mem_cons_of_mem _ hmem)
      · intro y hy
        rcases List.mem_cons.mp hy with rfl | hy
        · exact Nat.le_trans (Nat.le_of_not_lt h) hle
        · exact hall y hy

/-- On a list holding a record `r` strictly later than every other record,
the `pickLatest` fold returns exactly `r`. -/
theorem foldl_pickLatest_unique_max (l : List GradeRec) (r : GradeRec)
    (hmem : r ∈ l)
    (hmax : ∀ x ∈ l, x ≠ r → x.assignedAt < r.assignedAt) :
    l.foldl pickLatest none = some r := by
  cases l with
  | nil => cases hmem
  | cons x l' =>
    obtain ⟨b, hb, hbmem, hxb, hall⟩ := foldl_pickLatest_acc l' x
    have hfold : (x :: l').foldl pickLatest none = some b := by
      simpa [List.foldl_cons, pickLatest] using hb
    have hbmem' : b ∈ x :: l' := by
      rcases hbmem with rfl | h
      · exact List.mem_cons_self _ _
      · exact List.mem_cons_of_mem _ h
    have hrb : r.assignedAt ≤ b.assignedAt := by
      rcases List.mem_cons.mp hmem with rfl | hr
      · exact hxb
      · exact hall r hr
    have hbr : b = r := by
      by_contra hne
      have := hmax b hbmem' hne
      omega
    rw [hfold, hbr]

/-- Whenever one grade row for the pair is strictly latest, the
`ORDER BY assigned_at DESC LIMIT 1` model returns exactly that row. -/
theorem latestGradeRec_unique_max (gs : List GradeRec) (sid cid : Nat) (r : GradeRec)
    (hmem : r ∈ gradesFor gs sid cid)
    (hmax : ∀ x ∈ gradesFor gs sid cid, x ≠ r → x.assignedAt < r.assignedAt) :
    latestGradeRec gs sid cid = some r := by
  unfold latestGradeRec
  exact foldl_pickLatest_unique_max _ r hmem hmax

/-! ### Prerequisite-check characterizations -/

theorem unmetPrereqs_pos (gs : List GradeRec) (sid : Nat) (pres : List Nat) (pid : Nat)
    (hp : pid ∈ pres)
    (h : getLatestGrade gs sid pid = none ∨ getLatestGrade gs sid pid = some Grade.f) :
    0 < (unmetPrereqs gs sid pres).length := by
  have hmem : pid ∈ unmetPrereqs gs sid pres := by
    unfold unmetPrereqs
    rw [List.mem_filter]
    refine ⟨hp, ?_⟩
    rcases h with h | h
    · rw [h]
    · rw [h]
      simp
  exact List.length_pos.mpr (List.ne_nil_of_mem hmem)

theorem unmetPrereqs_eq_nil_iff (gs : List GradeRec) (sid : Nat) (pres : List Nat) :
    unmetPrereqs gs sid pres = [] ↔
      ∀ pid ∈ pres, ∃ g, getLatestGrade gs sid pid = some g ∧ g ≠ Grade.f := by
  unfold unmetPrereqs
  rw [List.filter_eq_nil_iff]
  constructor
  · intro h pid hp
    have hpid := h pid hp
    cases hg : getLatestGrade gs sid pid with
    | none => rw [hg] at hpid; simp at hpid
    | some g =>
      rw [hg] at hpid
      refine ⟨g, rfl, ?_⟩
      intro hgf
      subst hgf
      simp at hpid
  · intro h pid hp
    rcases h pid hp with ⟨g, hg, hgf⟩
    rw [hg]
    simp [hgf]

/-- The full decision tree of the single-enroll handler: course existence,
then capacity, then prerequisites, then the atomic insert-if-absent. -/
theorem enroll_cases (db : DB) (sid cid : Nat) :
    (getCourse db cid = none → enroll db sid cid = (EnrollResult.courseNotFound, db)) ∧
    (∀ c, getCourse db cid = some c →
      (c.enrollmentLimit ≤ countActiveEnrollments db cid →
        enroll db sid cid = (EnrollResult.capacity, db)) ∧
      (countActiveEnrollments db cid < c.enrollmentLimit →
        (0 < (unmetPrereqs db.grades sid c.prereqIds).length →
          enroll db sid cid = (EnrollResult.prerequisiteUnmet, db)) ∧
        ((unmetPrereqs db.grades sid c.prereqIds).length = 0 →
          (isEnrolled db sid cid = true →
            enroll db sid cid = (EnrollResult.alreadyEnrolled, db)) ∧
          (isEnrolled db sid cid = false →
            enroll db sid cid =
              (EnrollResult.success ⟨db.nextEnrollmentId, sid, cid⟩,
               { db with enrollments := db.enrollments ++ [⟨db.nextEnrollmentId, sid, cid⟩],
                         nextEnrollmentId := db.nextEnrollmentId + 1 }))))) := by
  refine ⟨?_, ?_⟩
  · intro h
    simp [enroll, h]
  · intro c hc
    refine ⟨?_, ?_⟩
    · intro hcap
      simp [enroll, hc, hcap]
    · intro hlt
      have hncap : ¬ c.enrollmentLimit ≤ countActiveEnrollments db cid := Nat.not_le.mpr hlt
      refine ⟨?_, ?_⟩
      · intro hun
        have hpre : 0 < c.prereqIds.length := by
          unfold unmetPrereqs at hun
          have hfl := List.length_filter_le (fun pid =>
            match getLatestGrade db.grades sid pid with
            | none => true
            | some g => g == Grade.f) c.prereqIds
          omega
        simp [enroll, hc, hncap, hpre, hun]
      · intro hun0
        refine ⟨?_, ?_⟩ <;> intro hen <;> by_cases hpre : 0 < c.prereqIds.length <;>
          simp [enroll, hc, hncap, hpre, hun0, insertIfAbsent, hen]

/-- A re-enroll attempt by an already-enrolled student never changes the
database, whatever the deny reason turns out to be. -/
theorem enroll_enrolled_snd (db : DB) (sid cid : Nat) (hen : isEnrolled db sid cid = true) :
    (enroll db sid cid).2 = db := by
  have hins : (insertIfAbsent db sid cid).2 = db := by
    simp [insertIfAbsent, hen]
  unfold enroll
  cases getCourse db cid with
  | none => rfl
  | some c =>
    simp only
    split
    · rfl
    · split
      · split
        · rfl
        · exact hins
      · exact hins


/-! ## Claim theorems -/

/-- Claim C1: for every bulkEnroll call on an existing course, the result list
has exactly one entry per input student, tagged with that student, in input
order; and seats are allocated sequentially so earlier students take priority:
with exactly 1 remaining seat and eligible input [S1, S2, S3], the outcome is
S1 success, S2 capacity, S3 capacity, and final seatsLeft = 0. -/
theorem bulk_order_priority :
    (∀ (db : DB) (cid : Nat) (sids : List Nat) (c : Course),
      getCourse db cid = some c →
      ∃ items seats, (bulkEnroll db cid sids).1 = BulkResult.ok items seats ∧
        items.map BulkItem.studentId = sids) ∧
    bulkEnroll dbOneSeat 10 [1, 2, 3] =
      (BulkResult.ok [⟨1, BulkOutcome.success⟩, ⟨2, BulkOutcome.capacity⟩,
                      ⟨3, BulkOutcome.capacity⟩] 0, dbOneSeatAfter) := by
  constructor
  · intro db cid sids c hc
    have hb : bulkEnroll db cid sids =
        (BulkResult.ok
          (bulkLoop cid c.prereqIds sids db
            (c.enrollmentLimit - countActiveEnrollments db cid)).1
          (bulkLoop cid c.prereqIds sids db
            (c.enrollmentLimit - countActiveEnrollments db cid)).2.2,
         (bulkLoop cid c.prereqIds sids db
            (c.enrollmentLimit - countActiveEnrollments db cid)).2.1) := by
      simp [bulkEnroll, hc]
    exact ⟨_, _, by rw [hb], bulkLoop_map_studentIds cid c.prereqIds sids db _⟩
  · decide

theorem bulk_order_priority_witness :
    ∃ items seats, (bulkEnroll dbOneSeat 10 [1, 2, 3]).1 = BulkResult.ok items seats ∧
      items.map BulkItem.studentId = [1, 2, 3] :=
  bulk_order_priority.1 dbOneSeat 10 [1, 2, 3] ⟨10, 3, []⟩ (by decide)

/-- Claim C2: for any course with limit L, after any sequence of single-enroll
and bulk-enroll operations (no intervening unenrollments), the active
enrollment count of that course stays at most L. -/
theorem capacity_invariant (ops : List Op) : ∀ (db : DB) (tc : Nat) (c : Course),
    (∀ op ∈ ops, op.isEnrollmentOp = true) →
    getCourse db tc = some c →
    countActiveEnrollments db tc ≤ c.enrollmentLimit →
    countActiveEnrollments (runOps db ops) tc ≤ c.enrollmentLimit := by
  induction ops with
  | nil => intro db tc c _ _ hle; exact hle
  | cons op rest ih =>
    intro db tc c hops hc hle
    exact ih (applyOp db op) tc c
      (fun o ho => hops o (List.mem_cons_of_mem _ ho))
      ((applyOp_getCourse db op tc).trans hc)
      (applyOp_capacity_le db op tc c (hops op (List.mem_cons_self _ _)) hc hle)

theorem capacity_invariant_witness :
    countActiveEnrollments
      (runOps dbOneSeat [Op.enroll 3 10, Op.bulk 10 [4, 5, 6]]) 10 ≤ 3 :=
  capacity_invariant [Op.enroll 3 10, Op.bulk 10 [4, 5, 6]] dbOneSeat 10 ⟨10, 3, []⟩
    (by decide) (by decide) (by decide)

/-- Claim C3: every state reachable by any sequence of single-enroll,
bulk-enroll and unenroll operations from a state whose ledger has no duplicate
(student, course) pair again has no duplicate pair. -/
theorem no_duplicate_enrollment (ops : List Op) : ∀ db : DB,
    NoDupPairs db → NoDupPairs (runOps db ops) := by
  induction ops with
  | nil => intro db h; exact h
  | cons op rest ih => intro db h; exact ih (applyOp db op) (applyOp_NoDupPairs db op h)

theorem no_duplicate_enrollment_witness :
    NoDupPairs (runOps dbOneSeat
      [Op.enroll 1 10, Op.enroll 1 10, Op.bulk 10 [1, 2, 2], Op.unenrollByCourse 1 10]) :=
  no_duplicate_enrollment
    [Op.enroll 1 10, Op.enroll 1 10, Op.bulk 10 [1, 2, 2], Op.unenrollByCourse 1 10]
    dbOneSeat (by unfold NoDupPairs; decide)

/-- Claim C4 (amended): for a course with a non-empty prerequisite set and
remaining capacity, enroll denies with prerequisite_unmet whenever some
required prerequisite has no grade record or latest grade F; and a
not-yet-enrolled student whose latest grade for every required prerequisite
exists and is not F (i.e. A+ through D) is admitted.  (The original claim
omitted the capacity condition on the deny half; see the counterexample.) -/
theorem prereq_gate (db : DB) (sid cid : Nat) (c : Course)
    (hc : getCourse db cid = some c)
    (hcap : countActiveEnrollments db cid < c.enrollmentLimit)
    (_hpres : c.prereqIds ≠ []) :
    ((∃ pid ∈ c.prereqIds, getLatestGrade db.grades sid pid = none ∨
        getLatestGrade db.grades sid pid = some Grade.f) →
      enroll db sid cid = (EnrollResult.prerequisiteUnmet, db)) ∧
    ((∀ pid ∈ c.prereqIds, ∃ g, getLatestGrade db.grades sid pid = some g ∧ g ≠ Grade.f) →
      isEnrolled db sid cid = false →
      (enroll db sid cid).1 = EnrollResult.success ⟨db.nextEnrollmentId, sid, cid⟩) := by
  constructor
  · rintro ⟨pid, hp, h⟩
    exact (((enroll_cases db sid cid).2 c hc).2 hcap).1
      (unmetPrereqs_pos db.grades sid c.prereqIds pid hp h)
  · intro hall hen
    have h0 : (unmetPrereqs db.grades sid c.prereqIds).length = 0 := by
      rw [List.length_eq_zero]
      exact (unmetPrereqs_eq_nil_iff db.grades sid c.prereqIds).mpr hall
    rw [((((enroll_cases db sid cid).2 c hc).2 hcap).2 h0).2 hen]

/-- Claim C4 as stated is false: in a full course with an unmet prerequisite,
enroll returns capacity, not prerequisite_unmet — the capacity check runs
first. -/
theorem prereq_gate_counterexample :
    getCourse dbFullPrereq 10 = some ⟨10, 1, [20]⟩ ∧
    getLatestGrade dbFullPrereq.grades 1 20 = none ∧
    (enroll dbFullPrereq 1 10).1 = EnrollResult.capacity ∧
    (enroll dbFullPrereq 1 10).1 ≠ EnrollResult.prerequisiteUnmet := by
  decide

theorem prereq_gate_witness :
    enroll dbTwoSeats 1 10 = (EnrollResult.prerequisiteUnmet, dbTwoSeats) ∧
    (enroll dbTwoSeats 2 10).1 = EnrollResult.success ⟨100, 2, 10⟩ := by
  constructor
  · exact (prereq_gate dbTwoSeats 1 10 ⟨10, 2, [20]⟩ (by decide) (by decide) (by decide)).1
      ⟨20, by decide, Or.inr (by decide)⟩
  · refine (prereq_gate dbTwoSeats 2 10 ⟨10, 2, [20]⟩ (by decide) (by decide) (by decide)).2
      ?_ (by decide)
    intro pid hp
    have hp20 : pid = 20 := by simpa using hp
    subst hp20
    exact ⟨Grade.b, by decide, by decide⟩

/-- Claim C5: for a student with any number (two or more, in the claim) of
grade records for the same prerequisite course, eligibility evaluation uses
only the record with the maximum assignment timestamp, regardless of
insertion order: any two storage states whose grade rows for the pair are
permutations of one another both evaluate to that record's value.  (Exact
timestamp ties are excluded: the spec leaves their tie-break unspecified.) -/
theorem latest_grade_max_timestamp (gs1 gs2 : List GradeRec) (sid cid : Nat) (r : GradeRec)
    (hperm : (gradesFor gs1 sid cid).Perm (gradesFor gs2 sid cid))
    (hmem : r ∈ gradesFor gs1 sid cid)
    (hmax : ∀ x ∈ gradesFor gs1 sid cid, x ≠ r → x.assignedAt < r.assignedAt) :
    getLatestGrade gs1 sid cid = some r.value ∧
    getLatestGrade gs2 sid cid = some r.value := by
  have h1 : latestGradeRec gs1 sid cid = some r :=
    latestGradeRec_unique_max gs1 sid cid r hmem hmax
  have h2 : latestGradeRec gs2 sid cid = some r :=
    latestGradeRec_unique_max gs2 sid cid r (hperm.mem_iff.mp hmem)
      (fun x hx hne => hmax x (hperm.mem_iff.mpr hx) hne)
  unfold getLatestGrade
  rw [h1, h2]
  exact ⟨rfl, rfl⟩

theorem latest_grade_max_timestamp_witness :
    getLatestGrade [⟨1, 20, Grade.f, 5⟩, ⟨1, 20, Grade.cMinus, 7⟩, ⟨1, 20, Grade.b, 9⟩] 1 20
        = some Grade.b ∧
    getLatestGrade [⟨1, 20, Grade.b, 9⟩, ⟨1, 20, Grade.f, 5⟩, ⟨1, 20, Grade.cMinus, 7⟩] 1 20
        = some Grade.b :=
  latest_grade_max_timestamp
    [⟨1, 20, Grade.f, 5⟩, ⟨1, 20, Grade.cMinus, 7⟩, ⟨1, 20, Grade.b, 9⟩]
    [⟨1, 20, Grade.b, 9⟩, ⟨1, 20, Grade.f, 5⟩, ⟨1, 20, Grade.cMinus, 7⟩]
    1 20 ⟨1, 20, Grade.b, 9⟩ (by decide) (by decide) (by decide)

/-- Claim C6: the single-enroll checks run in order — course existence, then
occupancy against the limit, then prerequisites, then the atomic
insert-if-absent which fails already_enrolled exactly when the pair exists and
otherwise returns the new record.  In particular capacity is decided before
prerequisites and before the duplicate check. -/
theorem enroll_check_order (db : DB) (sid cid : Nat) :
    (getCourse db cid = none → enroll db sid cid = (EnrollResult.courseNotFound, db)) ∧
    (∀ c, getCourse db cid = some c →
      (c.enrollmentLimit ≤ countActiveEnrollments db cid →
        enroll db sid cid = (EnrollResult.capacity, db)) ∧
      (countActiveEnrollments db cid < c.enrollmentLimit →
        (0 < (unmetPrereqs db.grades sid c.prereqIds).length →
          enroll db sid cid = (EnrollResult.prerequisiteUnmet, db)) ∧
        ((unmetPrereqs db.grades sid c.prereqIds).length = 0 →
          (isEnrolled db sid cid = true →
            enroll db sid cid = (EnrollResult.alreadyEnrolled, db)) ∧
          (isEnrolled db sid cid = false →
            enroll db sid cid =
              (EnrollResult.success ⟨db.nextEnrollmentId, sid, cid⟩,
               { db with enrollments := db.enrollments ++ [⟨db.nextEnrollmentId, sid, cid⟩],
                         nextEnrollmentId := db.nextEnrollmentId + 1 }))))) :=
  enroll_cases db sid cid

theorem enroll_check_order_witness :
    enroll dbOneSeat 1 10 = (EnrollResult.success ⟨100, 1, 10⟩, dbOneSeatAfter) :=
  ((((enroll_check_order dbOneSeat 1 10).2 ⟨10, 3, []⟩ (by decide)).2 (by decide)).2
    (by decide)).2 (by decide)

/-- Claim C7 (amended): an enroll attempt by an already-enrolled student never
changes the ledger; it returns already_enrolled provided the course is below
capacity and the student's prerequisites are satisfied.  (As stated the claim
is false: on a full course the attempt returns capacity instead; see the
counterexample.) -/
theorem reenroll_unchanged (db : DB) (sid cid : Nat)
    (hen : isEnrolled db sid cid = true) :
    (enroll db sid cid).2 = db ∧
    (∀ c, getCourse db cid = some c →
      countActiveEnrollments db cid < c.enrollmentLimit →
      (unmetPrereqs db.grades sid c.prereqIds).length = 0 →
      enroll db sid cid = (EnrollResult.alreadyEnrolled, db)) := by
  refine ⟨enroll_enrolled_snd db sid cid hen, ?_⟩
  intro c hc hcap h0
  exact ((((enroll_cases db sid cid).2 c hc).2 hcap).2 h0).1 hen

/-- Claim C7 as stated is false: student 1 is enrolled in course 10 which is
thereby at capacity, and a re-enroll attempt returns capacity, not
already_enrolled (the ledger is still unchanged). -/
theorem reenroll_counterexample :
    isEnrolled dbFullEnrolled 1 10 = true ∧
    (enroll dbFullEnrolled 1 10).1 = EnrollResult.capacity ∧
    (enroll dbFullEnrolled 1 10).1 ≠ EnrollResult.alreadyEnrolled := by
  decide

theorem reenroll_unchanged_witness :
    (enroll dbSpareEnrolled 1 10).2 = dbSpareEnrolled ∧
    enroll dbSpareEnrolled 1 10 = (EnrollResult.alreadyEnrolled, dbSpareEnrolled) := by
  have h := reenroll_unchanged dbSpareEnrolled 1 10 (by decide)
  exact ⟨h.1, h.2 ⟨10, 5, []⟩ (by decide) (by decide) (by decide)⟩

/-- Claim C8: against a non-existent course, single enroll returns
course_not_found and bulkEnroll returns a top-level not-found with no
per-student results; neither touches the database. -/
theorem unknown_course (db : DB) (sid cid : Nat) (sids : List Nat)
    (h : getCourse db cid = none) :
    enroll db sid cid = (EnrollResult.courseNotFound, db) ∧
    bulkEnroll db cid sids = (BulkResult.notFound, db) := by
  constructor
  · simp [enroll, h]
  · simp [bulkEnroll, h]

theorem unknown_course_witness :
    enroll dbOneSeat 5 99 = (EnrollResult.courseNotFound, dbOneSeat) ∧
    bulkEnroll dbOneSeat 99 [1, 2] = (BulkResult.notFound, dbOneSeat) :=
  unknown_course dbOneSeat 5 99 [1, 2] (by decide)

/-- Claim C9: with 2 remaining seats and input [S1 (latest grade F in the
required prerequisite), S2 (eligible), S3 (eligible)], bulkEnroll records
S1 prereq-unmet (the code reason string is "prereq"), S2 success, S3 success,
and final seatsLeft = 0 — the ineligible candidate consumes no seat. -/
theorem bulk_partial_eligibility :
    getCourse dbTwoSeats 10 = some ⟨10, 2, [20]⟩ ∧
    countActiveEnrollments dbTwoSeats 10 = 0 ∧
    getLatestGrade dbTwoSeats.grades 1 20 = some Grade.f ∧
    passedAll dbTwoSeats.grades 2 [20] = true ∧
    passedAll dbTwoSeats.grades 3 [20] = true ∧
    bulkEnroll dbTwoSeats 10 [1, 2, 3] =
      (BulkResult.ok [⟨1, BulkOutcome.prereq⟩, ⟨2, BulkOutcome.success⟩,
                      ⟨3, BulkOutcome.success⟩] 0, dbTwoSeatsAfter) := by
  decide

/-- Claim C10: a bulkEnroll on an existing course returns seatsLeft equal to
max(0, limit - occupancy at batch start) minus the number of successful
results (Nat subtraction is exactly that max), and the successes never exceed
the initial seat pool, so seatsLeft cannot go negative. -/
theorem bulk_seats_left (db : DB) (cid : Nat) (sids : List Nat) (c : Course)
    (hc : getCourse db cid = some c) :
    ∃ items seats, (bulkEnroll db cid sids).1 = BulkResult.ok items seats ∧
      (items.filter (fun i => i.outcome == BulkOutcome.success)).length
        ≤ c.enrollmentLimit - countActiveEnrollments db cid ∧
      seats = (c.enrollmentLimit - countActiveEnrollments db cid)
        - (items.filter (fun i => i.outcome == BulkOutcome.success)).length := by
  have hb : bulkEnroll db cid sids =
      (BulkResult.ok
        (bulkLoop cid c.prereqIds sids db
          (c.enrollmentLimit - countActiveEnrollments db cid)).1
        (bulkLoop cid c.prereqIds sids db
          (c.enrollmentLimit - countActiveEnrollments db cid)).2.2,
       (bulkLoop cid c.prereqIds sids db
          (c.enrollmentLimit - countActiveEnrollments db cid)).2.1) := by
    simp [bulkEnroll, hc]
  have hacc := bulkLoop_seats_accounting cid c.prereqIds sids db
    (c.enrollmentLimit - countActiveEnrollments db cid)
  refine ⟨(bulkLoop cid c.prereqIds sids db
            (c.enrollmentLimit - countActiveEnrollments db cid)).1,
          (bulkLoop cid c.prereqIds sids db
            (c.enrollmentLimit - countActiveEnrollments db cid)).2.2,
          ?_, ?_, ?_⟩
  · rw [hb]
  · omega
  · omega

theorem bulk_seats_left_witness :
    ∃ items seats, (bulkEnroll dbTwoSeats 10 [1, 2, 3]).1 = BulkResult.ok items seats ∧
      (items.filter (fun i => i.outcome == BulkOutcome.success)).length
        ≤ 2 - countActiveEnrollments dbTwoSeats 10 ∧
      seats = (2 - countActiveEnrollments dbTwoSeats 10)
        - (items.filter (fun i => i.outcome == BulkOutcome.success)).length :=
  bulk_seats_left dbTwoSeats 10 [1, 2, 3] ⟨10, 2, [20]⟩ (by decide)

end CourseHub
